import Mathlib

/-
  Verification of the location-parsing, client-caching, formatting and
  error-translation logic of the mcp-openweathermap server.

  Shallow embedding conventions:
  * JavaScript strings are modelled as Lean `String` / `List Char`.
  * JavaScript numbers are modelled as `ℚ` (exact rational arithmetic);
    `parseFloat` of a regex-captured decimal token is its exact decimal value.
  * Regular-expression matching for the two concrete patterns used by
    `parseLocation` is implemented by hand-written deterministic matchers.
    Both patterns are deterministic in the sense that greedy maximal munch
    agrees with backtracking semantics, because adjacent sub-patterns have
    disjoint character classes (digits vs `[,\s]` vs `[:\s]` vs letters).
  * Thrown JavaScript errors are modelled with `Except String`.
-/

namespace OWM

/-- The set of characters matched by the JavaScript regex class `\s`,
which is also exactly the set stripped by `String.prototype.trim`
(ECMA-262 WhiteSpace plus LineTerminator code points). -/
def isJSWhitespace (c : Char) : Bool :=
  c.toNat == 9 || c.toNat == 10 || c.toNat == 11 || c.toNat == 12 || c.toNat == 13 ||
  c.toNat == 32 || c.toNat == 160 || c.toNat == 5760 ||
  (8192 ≤ c.toNat && c.toNat ≤ 8202) ||
  c.toNat == 8232 || c.toNat == 8233 || c.toNat == 8239 || c.toNat == 8287 ||
  c.toNat == 12288 || c.toNat == 65279

/-- The JavaScript regex class `\d`, i.e. exactly the ASCII digits 0-9. -/
def isDigitChar (c : Char) : Bool :=
  48 ≤ c.toNat && c.toNat ≤ 57

/-- The regex class `[,\s]` used as pair separator in both location patterns
(code point 44 is the comma). -/
def isSepChar (c : Char) : Bool :=
  c.toNat == 44 || isJSWhitespace c

/-- The regex class `[:\s]` separating a lat/lon marker from its number
(code point 58 is the colon). -/
def isColonSepChar (c : Char) : Bool :=
  c.toNat == 58 || isJSWhitespace c

/-- Strip leading characters satisfying `isJSWhitespace`. -/
def trimLeft : List Char → List Char
  | [] => []
  | c :: cs => if isJSWhitespace c then trimLeft cs else c :: cs

/-- Model of `String.prototype.trim`: strip leading and trailing whitespace,
leaving interior characters untouched. -/
def trimChars (l : List Char) : List Char :=
  (trimLeft (trimLeft l).reverse).reverse

/-- Greedy maximal munch of a character class: returns the longest prefix
whose characters satisfy `p`, together with the remaining suffix. -/
def munchWhile (p : Char → Bool) : List Char → List Char × List Char
  | [] => ([], [])
  | c :: cs =>
    if p c then ((c :: (munchWhile p cs).1), (munchWhile p cs).2)
    else ([], c :: cs)

/-- Matcher for the unsigned part `\d+\.?\d*` of a number token
(greedy; deterministic because `.` and digits never start the follow-set
used by the two location patterns). Returns the matched token and the rest. -/
def matchNumberUnsigned (s : List Char) : Option (List Char × List Char) :=
  let m := munchWhile isDigitChar s
  if m.1 = [] then none
  else
    match m.2 with
    | [] => some (m.1, [])
    | c :: cs =>
      if c = '.' then
        let f := munchWhile isDigitChar cs
        some (m.1 ++ c :: f.1, f.2)
      else some (m.1, c :: cs)

/-- Matcher for the number sub-pattern `-?\d+\.?\d*` appearing (as a capture
group) in both coordinate regexes of `parseLocation`. -/
def matchNumber : List Char → Option (List Char × List Char)
  | [] => none
  | c :: cs =>
    if c = '-' then
      match matchNumberUnsigned cs with
      | none => none
      | some (t, r) => some ('-' :: t, r)
    else matchNumberUnsigned (c :: cs)

/-- Value of a digit list read in base 10 (most significant first). -/
def digitsVal (ds : List Char) : Nat :=
  ds.foldl (fun a c => 10 * a + (c.toNat - 48)) 0

/-- Exact value of `parseFloat` on an unsigned captured token matching
`\d+\.?\d*`: the integer part plus the fractional digits scaled by their
length (written with `Rat.divInt` so that the kernel can evaluate it). -/
def tokenValueUnsigned (t : List Char) : ℚ :=
  let m := munchWhile isDigitChar t
  match m.2 with
  | [] => (digitsVal m.1 : ℚ)
  | c :: cs =>
    if c = '.' then
      Rat.divInt (digitsVal m.1 * 10 ^ cs.length + digitsVal cs : ℕ) ((10 ^ cs.length : ℕ) : ℤ)
    else (digitsVal m.1 : ℚ)

/-- Exact value of `parseFloat` on a captured token matching `-?\d+\.?\d*`. -/
def tokenValue (t : List Char) : ℚ :=
  match t with
  | [] => 0
  | c :: cs => if c = '-' then -(tokenValueUnsigned cs) else tokenValueUnsigned (c :: cs)

/-- The uppercase variant of a lowercase ASCII letter, for the `/i` flag. -/
def asciiUpperChar (c : Char) : Char :=
  Char.ofNat (c.toNat - 32)

/-- Case-insensitive match of a literal lowercase keyword at the head of the
input (the `/i` flag applied to the literals `lat` and `lon`). -/
def matchKeyword : List Char → List Char → Option (List Char)
  | [], s => some s
  | _ :: _, [] => none
  | k :: ks, c :: cs =>
    if c = k ∨ c = asciiUpperChar k then matchKeyword ks cs else none

/-- Match of `lat[:\s]*(-?\d+\.?\d*)[,\s]+lon[:\s]*(-?\d+\.?\d*)` (with `/i`)
anchored at the start of `s`, returning the two captured number tokens.
Greedy maximal munch is equivalent to the backtracking regex here because
every boundary is between disjoint character classes. -/
def matchExplicitAt (s : List Char) : Option (List Char × List Char) :=
  match matchKeyword ['l', 'a', 't'] s with
  | none => none
  | some r1 =>
    let c1 := munchWhile isColonSepChar r1
    match matchNumber c1.2 with
    | none => none
    | some (t1, r2) =>
      let sp := munchWhile isSepChar r2
      if sp.1 = [] then none
      else
        match matchKeyword ['l', 'o', 'n'] sp.2 with
        | none => none
        | some r3 =>
          let c2 := munchWhile isColonSepChar r3
          match matchNumber c2.2 with
          | none => none
          | some (t2, _) => some (t1, t2)

/-- Unanchored search for the explicit coordinate pattern: try every start
position from the left, as a JavaScript regex `match` does. -/
def scanExplicit : List Char → Option (List Char × List Char)
  | [] => none
  | c :: cs =>
    match matchExplicitAt (c :: cs) with
    | some r => some r
    | none => scanExplicit cs

/-- Match of the anchored bare-pair pattern
`^(-?\d+\.?\d*)[,\s]+(-?\d+\.?\d*)$`, returning the two captured tokens. -/
def matchCoordPair (s : List Char) : Option (List Char × List Char) :=
  match matchNumber s with
  | none => none
  | some (t1, r1) =>
    let sp := munchWhile isSepChar r1
    if sp.1 = [] then none
    else
      match matchNumber sp.2 with
      | none => none
      | some (t2, r3) => if r3 = [] then some (t1, t2) else none

/-- The `type` discriminant of the TypeScript `ParsedLocation` interface. -/
inductive LocationType
  | coordinates
  | city
deriving DecidableEq

/-- Embedding of the TypeScript interface `ParsedLocation`
(all of latitude, longitude and city are optional fields). -/
structure ParsedLocation where
  type : LocationType
  latitude : Option ℚ := none
  longitude : Option ℚ := none
  city : Option String := none
deriving DecidableEq

/-- Embedding of `isValidCoordinate` from location-parser.ts. -/
def isValidCoordinate (lat lon : ℚ) : Bool :=
  lat ≥ -90 && lat ≤ 90 && lon ≥ -180 && lon ≤ 180

/-- The city fallback `{ type: "city", city: trimmed }` of `parseLocation`. -/
def cityResult (trimmed : List Char) : ParsedLocation :=
  { type := LocationType.city, city := some (String.mk trimmed) }

/-- Steps 2-3 of `parseLocation`: the comma-separated coordinate check
followed by the city fallback (reached when the explicit pattern fails
or is out of range). -/
def coordStep (trimmed : List Char) : ParsedLocation :=
  match matchCoordPair trimmed with
  | some (t1, t2) =>
    if isValidCoordinate (tokenValue t1) (tokenValue t2) then
      { type := LocationType.coordinates,
        latitude := some (tokenValue t1), longitude := some (tokenValue t2) }
    else cityResult trimmed
  | none => cityResult trimmed

/-- Embedding of `parseLocation` from location-parser.ts: trim, try the
explicit `lat:`/`lon:` pattern, then the bare comma/space separated pair,
then fall back to a city name. -/
def parseLocation (location : String) : ParsedLocation :=
  let trimmed := trimChars location.toList
  match scanExplicit trimmed with
  | some (t1, t2) =>
    if isValidCoordinate (tokenValue t1) (tokenValue t2) then
      { type := LocationType.coordinates,
        latitude := some (tokenValue t1), longitude := some (tokenValue t2) }
    else coordStep trimmed
  | none => coordStep trimmed

/-- Guard of the explicit-pattern branch of `parseLocation`: true when the
explicit pattern matches with both captured numbers within bounds. -/
def explicitInRange (trimmed : List Char) : Bool :=
  match scanExplicit trimmed with
  | some (t1, t2) => isValidCoordinate (tokenValue t1) (tokenValue t2)
  | none => false

/-- Guard of the bare-pair branch of `parseLocation`: true when the anchored
pair pattern matches with both numbers within bounds. -/
def pairInRange (trimmed : List Char) : Bool :=
  match matchCoordPair trimmed with
  | some (t1, t2) => isValidCoordinate (tokenValue t1) (tokenValue t2)
  | none => false

/-- Decimal digits of a natural number, most significant first; the first
argument is recursion fuel (any value above the digit count works). -/
def natToStrAux : Nat → Nat → List Char
  | 0, _ => []
  | fuel + 1, n =>
    if n < 10 then [Char.ofNat (48 + n)]
    else natToStrAux fuel (n / 10) ++ [Char.ofNat (48 + n % 10)]

/-- Decimal string of a natural number. -/
def natToStr (n : Nat) : String :=
  String.mk (natToStrAux (n + 1) n)

/-- Left-pad a digit list with the character 0 up to width `k`. -/
def padZeros (k : Nat) (l : List Char) : List Char :=
  List.replicate (k - l.length) '0' ++ l

/-- The scaled integer chosen by `Number.prototype.toFixed(4)` for a
non-negative value: the integer n minimizing the distance of n / 10^4 to q,
larger n on ties.  This is ⌊q * 10^4 + 1/2⌋, written on the numerator and
denominator of `q` so that the kernel can evaluate it
(see `toFixed4Nat_eq_floor` below). -/
def toFixed4Nat (q : ℚ) : ℕ :=
  (Rat.floor (Rat.divInt (q.num * 20000 + (q.den : ℤ)) (2 * (q.den : ℤ)))).toNat

/-- Rendering of `toFixed(4)` for a non-negative value: integer part,
decimal point, and the fractional part zero-padded to 4 digits. -/
def toFixed4Abs (q : ℚ) : String :=
  let n := toFixed4Nat q
  natToStr (n / 10000) ++ "." ++ String.mk (padZeros 4 (natToStrAux (n % 10000 + 1) (n % 10000)))

/-- Model of JavaScript `Number.prototype.toFixed(4)`: for a negative value
the sign is rendered and the algorithm is applied to the absolute value
(ECMA-262 Number.prototype.toFixed, step 10). -/
def toFixed4 (q : ℚ) : String :=
  if q < 0 then "-" ++ toFixed4Abs (-q) else toFixed4Abs q

/-- Rendering of the template fragment for an optional numeric field:
JavaScript optional chaining yields the literal text undefined when the
field is absent, and the `toFixed(4)` rendering otherwise. -/
def jsNumFieldToFixed4 (x : Option ℚ) : String :=
  match x with
  | some q => toFixed4 q
  | none => "undefined"

/-- JavaScript `a || b` for an optional string `a`: absent and empty strings
are falsy and select the fallback. -/
def jsStrOr (x : Option String) (fallback : String) : String :=
  match x with
  | some s => if s = "" then fallback else s
  | none => fallback

/-- Embedding of `formatLocation` from location-parser.ts. -/
def formatLocation (location : ParsedLocation) : String :=
  if location.type = LocationType.coordinates then
    jsNumFieldToFixed4 location.latitude ++ ", " ++ jsNumFieldToFixed4 location.longitude
  else jsStrOr location.city "Unknown location"

/-- The `Units` union type of schemas.ts. -/
inductive Units
  | metric
  | imperial
  | standard
deriving DecidableEq

/-- The observable location configuration of an `OpenWeatherAPI` client:
either unset (fresh client), or the last value set through
`setLocationByCoordinates` or `setLocationByName`. -/
inductive ClientLocation
  | unset
  | byCoordinates (lat lon : ℚ)
  | byName (name : String)
deriving DecidableEq

/-- The per-client mutable state touched by `configureClientForLocation`. -/
structure OpenWeatherClient where
  location : ClientLocation
  units : Units
deriving DecidableEq

/-- A freshly constructed client: no location yet, default metric units
(the constructor argument in `getOpenWeatherClient`). -/
def newClient : OpenWeatherClient :=
  { location := ClientLocation.unset, units := Units.metric }

/-- JavaScript truthiness of an optional number: absent is falsy, a number
is falsy exactly when it is zero (`NaN` cannot arise here: every captured
token of `parseLocation` parses to a rational). -/
def qTruthy : Option ℚ → Bool
  | none => false
  | some q => if q = 0 then false else true

/-- JavaScript truthiness of an optional string: absent and empty are falsy. -/
def strTruthy : Option String → Bool
  | none => false
  | some s => if s = "" then false else true

/-- Embedding of `configureClientForLocation` from client-resolver.ts.
Throwing `new Error("Invalid location format")` is modelled as
`Except.error`; the two truthiness guards mirror
`parsed.latitude && parsed.longitude` and `parsed.city`. -/
def configureClientForLocation (client : OpenWeatherClient) (location : String)
    (units : Option Units) : Except String OpenWeatherClient :=
  let parsed := parseLocation location
  let configured : Except String OpenWeatherClient :=
    if parsed.type = LocationType.coordinates ∧ qTruthy parsed.latitude ∧ qTruthy parsed.longitude then
      Except.ok { client with
        location := ClientLocation.byCoordinates (parsed.latitude.getD 0) (parsed.longitude.getD 0) }
    else if parsed.type = LocationType.city ∧ strTruthy parsed.city then
      Except.ok { client with location := ClientLocation.byName (parsed.city.getD "") }
    else Except.error "Invalid location format"
  match configured with
  | Except.error e => Except.error e
  | Except.ok c =>
    match units with
    | some u => Except.ok { c with units := u }
    | none => Except.ok c

instance {ε α : Type} [DecidableEq ε] [DecidableEq α] : DecidableEq (Except ε α) := fun x y =>
  match x, y with
  | Except.ok a, Except.ok b =>
    if h : a = b then isTrue (by rw [h]) else isFalse (by simp [h])
  | Except.ok _, Except.error _ => isFalse (by simp)
  | Except.error _, Except.ok _ => isFalse (by simp)
  | Except.error e, Except.error f =>
    if h : e = f then isTrue (by rw [h]) else isFalse (by simp [h])

/-- Embedding of the `SessionData` interface of auth/types.ts
(the Date field is an epoch timestamp). -/
structure SessionData where
  apiKey : String
  authenticatedAt : ℤ
deriving DecidableEq

/-- The process-wide `clientCache` Map plus a counter that numbers client
constructions; a `ClientHandle` is identified by its construction number,
so two handles are identity-equal exactly when the numbers agree. -/
structure ResolverState where
  cache : List (String × ℕ)
  nextId : ℕ
deriving DecidableEq

/-- `Map.prototype.get`, on the insertion-ordered entry list. -/
def mapGet : List (String × ℕ) → String → Option ℕ
  | [], _ => none
  | (k, v) :: rest, key => if k = key then some v else mapGet rest key

/-- `Map.prototype.set`: update in place when the key exists, else append. -/
def mapSet : List (String × ℕ) → String → ℕ → List (String × ℕ)
  | [], key, v => [(key, v)]
  | (k, w) :: rest, key, v =>
    if k = key then (k, v) :: rest else (k, w) :: mapSet rest key v

/-- The module-initialization state: `new Map()` and no constructions yet. -/
def initialResolverState : ResolverState :=
  { cache := [], nextId := 0 }

/-- Embedding of `getOpenWeatherClient` from client-resolver.ts: fall back
to the stdio session, fail without any session, then look up or construct
and cache the client for the session credential. -/
def getOpenWeatherClient (session stdioSession : Option SessionData)
    (st : ResolverState) : Except String (ℕ × ResolverState) :=
  match session.orElse (fun _ => stdioSession) with
  | none => Except.error "No authentication session available"
  | some effectiveSession =>
    match mapGet st.cache effectiveSession.apiKey with
    | some client => Except.ok (client, st)
    | none =>
      Except.ok (st.nextId,
        { cache := mapSet st.cache effectiveSession.apiKey st.nextId,
          nextId := st.nextId + 1 })

/-- The state transition of one `getOpenWeatherClient` call (a failed call
leaves the cache untouched). -/
def resolverStep (stdioSession : Option SessionData) (st : ResolverState)
    (s : Option SessionData) : ResolverState :=
  match getOpenWeatherClient s stdioSession st with
  | Except.ok r => r.2
  | Except.error _ => st

/-- The cache state after a sequence of `getOpenWeatherClient` calls,
starting from module initialization. -/
def runResolver (stdioSession : Option SessionData)
    (calls : List (Option SessionData)) : ResolverState :=
  calls.foldl (resolverStep stdioSession) initialResolverState

/-- JavaScript `Math.trunc`-style truncation implicit in the `%` operator. -/
def jsTrunc (q : ℚ) : ℤ :=
  if q < 0 then -⌊-q⌋ else ⌊q⌋

/-- JavaScript `%` on numbers: remainder with the sign of the dividend. -/
def jsMod (x m : ℚ) : ℚ :=
  x - m * jsTrunc (x / m)

/-- JavaScript `Math.round`: nearest integer, ties toward positive
infinity, i.e. ⌊x + 1/2⌋. -/
def jsRound (x : ℚ) : ℤ :=
  ⌊x + 1 / 2⌋

/-- JavaScript `%` on integers (sign of the dividend), for `index % 16`. -/
def jsIntRem (a b : ℤ) : ℤ :=
  if a < 0 then -((-a) % b) else a % b

/-- The 16-entry compass table of `getWindDirection`. -/
def windDirections : List String :=
  ["N", "NNE", "NE", "ENE", "E", "ESE", "SE", "SSE",
   "S", "SSW", "SW", "WSW", "W", "WNW", "NW", "NNW"]

/-- The index expression `Math.round((degrees % 360) / 22.5) % 16` of
`getWindDirection`. -/
def windIndex (degrees : ℚ) : ℤ :=
  jsIntRem (jsRound (jsMod degrees 360 / (45 / 2))) 16

/-- Embedding of `getWindDirection` from weather-formatter.ts: the array
lookup `directions[index % 16]` yields `undefined` (modelled `none`) when
the index is negative, which JavaScript array indexing permits. -/
def getWindDirection (degrees : ℚ) : Option String :=
  if 0 ≤ windIndex degrees then windDirections.get? (windIndex degrees).toNat
  else none

/-- Embedding of the precipitation bucket expression of the
get-minutely-forecast handler in main.ts:
`rain > 0 ? (rain < 0.1 ? Light : rain < 0.5 ? Moderate : Heavy) : None`. -/
def precipitationDescription (rain : ℚ) : String :=
  if rain > 0 then
    if rain < 0.1 then "Light rain"
    else if rain < 0.5 then "Moderate rain"
    else "Heavy rain"
  else "No precipitation"

/-- Embedding of the alert severity expression of the get-weather-alerts
handler in main.ts. -/
def alertSeverity (tags : List String) : String :=
  if tags.contains "severe" || tags.contains "extreme" then "High"
  else if tags.contains "moderate" then "Medium"
  else "Low"

/-- Prefix test on character lists, used by the `includes` model. -/
def startsWithChars : List Char → List Char → Bool
  | _, [] => true
  | [], _ :: _ => false
  | c :: cs, d :: ds => c == d && startsWithChars cs ds

/-- Occurrence test at any position, on character lists. -/
def includesChars : List Char → List Char → Bool
  | [], sub => sub.isEmpty
  | c :: cs, sub => startsWithChars (c :: cs) sub || includesChars cs sub

/-- Model of JavaScript `String.prototype.includes` (substring test). -/
def strIncludes (s sub : String) : Bool :=
  includesChars s.toList sub.toList

/-- The eleven tools registered in main.ts. -/
inductive ToolName
  | getCurrentWeather
  | getWeatherForecast
  | getHourlyForecast
  | getDailyForecast
  | getMinutelyForecast
  | getWeatherAlerts
  | getCurrentAirPollution
  | getLocationInfo
  | getOneCallWeather
  | getAirPollution
  | geocodeLocation
deriving DecidableEq

/-- Whether a tool takes a free-form location string parameter (the other
three take explicit latitude and longitude numbers). -/
def usesLocationString : ToolName → Bool
  | ToolName.getLocationInfo => false
  | ToolName.getOneCallWeather => false
  | ToolName.getAirPollution => false
  | _ => true

/-- The per-tool action phrase of the generic fallback message
`Failed to ...`. -/
def actionPhrase : ToolName → String
  | ToolName.getCurrentWeather => "get current weather"
  | ToolName.getWeatherForecast => "get weather forecast"
  | ToolName.getHourlyForecast => "get hourly weather forecast"
  | ToolName.getDailyForecast => "get daily weather forecast"
  | ToolName.getMinutelyForecast => "get minutely weather forecast"
  | ToolName.getWeatherAlerts => "get weather alerts"
  | ToolName.getCurrentAirPollution => "get current air pollution"
  | ToolName.getLocationInfo => "get location info"
  | ToolName.getOneCallWeather => "get OneCall weather"
  | ToolName.getAirPollution => "get air pollution data"
  | ToolName.geocodeLocation => "geocode location"

/-- The three known upstream error phrases tested by the catch blocks. -/
inductive ErrorCheck
  | cityNotFound
  | invalidApiKey
  | invalidCoordinates
deriving DecidableEq

/-- The substring each check matches against the upstream error message. -/
def checkSubstring : ErrorCheck → String
  | ErrorCheck.cityNotFound => "city not found"
  | ErrorCheck.invalidApiKey => "Invalid API key"
  | ErrorCheck.invalidCoordinates => "Invalid coordinates"

/-- The user-facing message thrown when a check matches, for tool `t` with
the tool locator argument interpolated. Seven location-string tools share
the city-not-found text suggesting coordinates; the geocode-location
handler instead interpolates its query argument and suggests a different
location name; the API-key and coordinate-range texts are uniform. -/
def checkMessage (t : ToolName) (location : String) : ErrorCheck → String
  | ErrorCheck.cityNotFound =>
    if t = ToolName.geocodeLocation then
      "Location \"" ++ location ++ "\" not found. Please check the spelling or try a different location name."
    else
      "Location \"" ++ location ++ "\" not found. Please check the spelling or try using coordinates."
  | ErrorCheck.invalidApiKey =>
    "Invalid OpenWeatherMap API key. Please check your configuration."
  | ErrorCheck.invalidCoordinates =>
    "Invalid coordinates: latitude must be between -90 and 90, longitude must be between -180 and 180."

/-- The first substring check of a tool handler catch block: location-string
tools test for city not found, coordinate tools for Invalid coordinates. -/
def firstCheck (t : ToolName) : ErrorCheck :=
  if usesLocationString t then ErrorCheck.cityNotFound else ErrorCheck.invalidCoordinates

/-- Embedding of a tool handler catch block from main.ts: test the
tool-specific first phrase, then the Invalid API key phrase, else wrap the
original message in the generic per-tool fallback. -/
def handleToolError (t : ToolName) (location msg : String) : String :=
  if strIncludes msg (checkSubstring (firstCheck t)) then
    checkMessage t location (firstCheck t)
  else if strIncludes msg (checkSubstring ErrorCheck.invalidApiKey) then
    checkMessage t location ErrorCheck.invalidApiKey
  else "Failed to " ++ actionPhrase t ++ ": " ++ msg

/-- Claim-side decomposition of a token of the bare-pair pattern
`-?\d+(\.\d+)?`: optional sign, integer digits, optional dot with at least
one fractional digit. -/
def mkNumTok (neg : Bool) (ds fs : List Char) : List Char :=
  (if neg then ['-'] else []) ++ ds ++ (if fs = [] then [] else '.' :: fs)

/-- The exact decimal value denoted by such a token. -/
def decimalValue (neg : Bool) (ds fs : List Char) : ℚ :=
  (if neg then -1 else 1) * ((digitsVal ds : ℚ) + (digitsVal fs : ℚ) / 10 ^ fs.length)

/-- Center bearing of compass sector `k` (0 = N, 1 = NNE, ...). -/
def sectorCenter (k : ℕ) : ℚ :=
  45 / 2 * k

/-- Distance between two bearings in [0, 360), measured around the circle. -/
def circularDistance (a b : ℚ) : ℚ :=
  min |a - b| (360 - |a - b|)

/-- C1: the repository treats zero as a valid coordinate component
(`isValidCoordinate` admits it and the parser test suite expects it), but
`configureClientForLocation` rejects the in-bounds pair parsed from the
location string "0,0" with the Invalid location format error, because its
truthiness guard cannot distinguish a zero field from an absent one.
Non-zero in-bounds pairs are configured as the claim states. -/
theorem configureClientForLocation_zero_divergence :
    parseLocation "0,0" =
      { type := LocationType.coordinates, latitude := some 0, longitude := some 0,
        city := none } ∧
    isValidCoordinate 0 0 = true ∧
    configureClientForLocation newClient "0,0" none =
      Except.error "Invalid location format" ∧
    configureClientForLocation newClient "40.5 -74" none =
      Except.ok { location := ClientLocation.byCoordinates (Rat.divInt 405 10) (-74),
                  units := Units.metric } := by
  refine ⟨by decide, by decide, by decide, by decide⟩

/-- C4 counterexample: the get-current-weather handler does not test for
the Invalid coordinates phrase, so such an upstream error is wrapped in
the generic fallback instead of the range-validation message; dually the
get-location-info handler wraps a city not found error generically. -/
theorem handleToolError_counterexample :
    handleToolError ToolName.getCurrentWeather "London" "Invalid coordinates"
      = "Failed to get current weather: Invalid coordinates" ∧
    handleToolError ToolName.getCurrentWeather "London" "Invalid coordinates"
      ≠ "Invalid coordinates: latitude must be between -90 and 90, longitude must be between -180 and 180." ∧
    handleToolError ToolName.getLocationInfo "40,50" "city not found"
      = "Failed to get location info: city not found" := by
  refine ⟨by decide, by decide, by decide⟩

/-- C4 (amended): every handler classifies the upstream message against the
two phrases its own catch block tests - city not found for the eight
location-string tools (with the geocode-location handler using its own
wording of the user message), Invalid coordinates for the three coordinate
tools, then Invalid API key - and wraps everything else in the generic
Failed to ... fallback preserving the original message. -/
theorem handleToolError_classification :
    ∀ (t : ToolName) (location msg : String),
      (strIncludes msg (checkSubstring (firstCheck t)) = true →
        handleToolError t location msg = checkMessage t location (firstCheck t)) ∧
      (strIncludes msg (checkSubstring (firstCheck t)) = false →
        strIncludes msg "Invalid API key" = true →
        handleToolError t location msg
          = "Invalid OpenWeatherMap API key. Please check your configuration.") ∧
      (strIncludes msg (checkSubstring (firstCheck t)) = false →
        strIncludes msg "Invalid API key" = false →
        handleToolError t location msg = "Failed to " ++ actionPhrase t ++ ": " ++ msg) := by
  intro t location msg
  refine ⟨?_, ?_, ?_⟩
  · intro h
    unfold handleToolError
    rw [h]
    simp
  · intro h1 h2
    unfold handleToolError
    rw [h1, show checkSubstring ErrorCheck.invalidApiKey = "Invalid API key" from rfl, h2]
    simp [checkMessage]
  · intro h1 h2
    unfold handleToolError
    rw [h1, show checkSubstring ErrorCheck.invalidApiKey = "Invalid API key" from rfl, h2]
    simp

/-- C4 witness: a coordinate tool maps an Invalid coordinates upstream
error to the range-validation message, and the geocode-location tool maps
a city-not-found error to its own different-location-name message. -/
theorem handleToolError_classification_witness :
    handleToolError ToolName.getLocationInfo "spot" "upstream: Invalid coordinates"
      = "Invalid coordinates: latitude must be between -90 and 90, longitude must be between -180 and 180." ∧
    handleToolError ToolName.geocodeLocation "Atlantis" "city not found"
      = "Location \"Atlantis\" not found. Please check the spelling or try a different location name." :=
  ⟨(handleToolError_classification ToolName.getLocationInfo "spot"
      "upstream: Invalid coordinates").1 (by decide),
   (handleToolError_classification ToolName.geocodeLocation "Atlantis"
      "city not found").1 (by decide)⟩

/-- C5: the minutely-forecast precipitation description is No precipitation
at rain rate 0, Light rain strictly between 0 and 0.1, Moderate rain in
[0.1, 0.5), and Heavy rain at or above 0.5. -/
theorem precipitationDescription_buckets :
    ∀ rain : ℚ,
      (rain = 0 → precipitationDescription rain = "No precipitation") ∧
      (0 < rain → rain < 0.1 → precipitationDescription rain = "Light rain") ∧
      (0.1 ≤ rain → rain < 0.5 → precipitationDescription rain = "Moderate rain") ∧
      (0.5 ≤ rain → precipitationDescription rain = "Heavy rain") := by
  intro rain
  unfold precipitationDescription
  refine ⟨?_, ?_, ?_, ?_⟩
  · intro h
    subst h
    norm_num
  · intro h1 h2
    rw [if_pos h1, if_pos h2]
  · intro h1 h2
    have h0 : (0 : ℚ) < rain := lt_of_lt_of_le (by norm_num) h1
    rw [if_pos h0, if_neg (not_lt.mpr h1), if_pos h2]
  · intro h1
    have h0 : (0 : ℚ) < rain := lt_of_lt_of_le (by norm_num) h1
    have h2 : ¬rain < 0.1 := by
      rw [not_lt]
      calc (0.1 : ℚ) ≤ 0.5 := by norm_num
        _ ≤ rain := h1
    rw [if_pos h0, if_neg h2, if_neg (not_lt.mpr h1)]

/-- C5 witness: the four bucket examples of the specification. -/
theorem precipitationDescription_buckets_witness :
    precipitationDescription 0 = "No precipitation" ∧
    precipitationDescription 0.05 = "Light rain" ∧
    precipitationDescription 0.3 = "Moderate rain" ∧
    precipitationDescription 1 = "Heavy rain" :=
  ⟨(precipitationDescription_buckets 0).1 rfl,
   (precipitationDescription_buckets 0.05).2.1 (by norm_num) (by norm_num),
   (precipitationDescription_buckets 0.3).2.2.1 (by norm_num) (by norm_num),
   (precipitationDescription_buckets 1).2.2.2 (by norm_num)⟩

/-- C6: an alert's severity is High exactly when its tag list contains
severe or extreme, else Medium exactly when it contains moderate, else
Low; membership is case-sensitive exact string equality. -/
theorem alertSeverity_classification :
    ∀ tags : List String,
      (alertSeverity tags = "High" ↔ "severe" ∈ tags ∨ "extreme" ∈ tags) ∧
      (alertSeverity tags = "Medium" ↔
        "moderate" ∈ tags ∧ ¬("severe" ∈ tags ∨ "extreme" ∈ tags)) ∧
      (alertSeverity tags = "Low" ↔
        ¬("severe" ∈ tags ∨ "extreme" ∈ tags) ∧ "moderate" ∉ tags) := by
  intro tags
  unfold alertSeverity
  by_cases h1 : "severe" ∈ tags ∨ "extreme" ∈ tags
  · have hb : (tags.contains "severe" || tags.contains "extreme") = true := by
      simp
      tauto
    simp [hb, h1]
  · have hb : (tags.contains "severe" || tags.contains "extreme") = false := by
      simp
      tauto
    by_cases h2 : "moderate" ∈ tags
    · have hm : tags.contains "moderate" = true := by
        simp [h2]
      simp [hb, hm, h1, h2]
    · have hm : tags.contains "moderate" = false := by
        simp [h2]
      simp [hb, hm, h1, h2]

/-- C6 witness: severity of concrete tag lists, including the
case-sensitivity of the membership test. -/
theorem alertSeverity_classification_witness :
    alertSeverity ["tornado", "extreme"] = "High" ∧
    alertSeverity ["moderate"] = "Medium" ∧
    alertSeverity ["Severe"] = "Low" :=
  ⟨((alertSeverity_classification ["tornado", "extreme"]).1).mpr (by simp),
   ((alertSeverity_classification ["moderate"]).2.1).mpr (by simp),
   ((alertSeverity_classification ["Severe"]).2.2).mpr (by simp)⟩

/-- C9: formatLocation renders present coordinates fixed to 4 decimals
joined by a comma and space, a place name as its query or the
Unknown location fallback when absent or empty, and absent numeric fields
as the literal text undefined. -/
theorem formatLocation_rendering :
    (∀ lat lon : ℚ,
      formatLocation { type := LocationType.coordinates, latitude := some lat,
                       longitude := some lon }
        = toFixed4 lat ++ ", " ++ toFixed4 lon) ∧
    formatLocation { type := LocationType.coordinates, latitude := some 40,
                     longitude := some (-74) } = "40.0000, -74.0000" ∧
    (∀ q : String, q ≠ "" →
      formatLocation { type := LocationType.city, city := some q } = q) ∧
    formatLocation { type := LocationType.city, city := some "" } = "Unknown location" ∧
    formatLocation { type := LocationType.city } = "Unknown location" ∧
    (∀ lon : ℚ,
      formatLocation { type := LocationType.coordinates, longitude := some lon }
        = "undefined" ++ ", " ++ toFixed4 lon) ∧
    (∀ lat : ℚ,
      formatLocation { type := LocationType.coordinates, latitude := some lat }
        = toFixed4 lat ++ ", " ++ "undefined") ∧
    formatLocation { type := LocationType.coordinates } = "undefined, undefined" := by
  refine ⟨?_, by decide, ?_, by decide, by decide, ?_, ?_, by decide⟩
  · intro lat lon
    simp [formatLocation, jsNumFieldToFixed4]
  · intro q hq
    simp [formatLocation, jsStrOr, hq]
  · intro lon
    simp [formatLocation, jsNumFieldToFixed4]
  · intro lat
    simp [formatLocation, jsNumFieldToFixed4]

/-- C9 witness: a non-empty place name renders as itself. -/
theorem formatLocation_rendering_witness :
    formatLocation { type := LocationType.city, city := some "New York, US" }
      = "New York, US" :=
  formatLocation_rendering.2.2.1 "New York, US" (by decide)

theorem mapGet_mapSet_self (m : List (String × ℕ)) (k : String) (v : ℕ) :
    mapGet (mapSet m k v) k = some v := by
  induction m with
  | nil => simp [mapSet, mapGet]
  | cons e rest ih =>
    obtain ⟨k1, v1⟩ := e
    by_cases h : k1 = k
    · simp [mapSet, mapGet, h]
    · simp [mapSet, mapGet, h, ih]

theorem mem_mapSet_of_get_none (m : List (String × ℕ)) (k : String) (v : ℕ)
    (hget : mapGet m k = none) : ∀ e ∈ m, e ∈ mapSet m k v := by
  induction m with
  | nil => simp
  | cons f rest ih =>
    obtain ⟨k1, v1⟩ := f
    intro e he
    have hk1 : ¬k1 = k := by
      intro h
      simp [mapGet, h] at hget
    rcases List.mem_cons.mp he with h1 | h1
    · subst h1
      simp [mapSet, hk1]
    · have hrest : mapGet rest k = none := by
        simpa [mapGet, hk1] using hget
      simp [mapSet, hk1, ih hrest e h1]

theorem mapSet_keys_of_get_none (m : List (String × ℕ)) (k : String) (v : ℕ)
    (hget : mapGet m k = none) :
    (mapSet m k v).map Prod.fst = m.map Prod.fst ++ [k] := by
  induction m with
  | nil => simp [mapSet]
  | cons f rest ih =>
    obtain ⟨k1, v1⟩ := f
    have hk1 : ¬k1 = k := by
      intro h
      simp [mapGet, h] at hget
    have hrest : mapGet rest k = none := by
      simpa [mapGet, hk1] using hget
    simp [mapSet, hk1, ih hrest]

theorem mapGet_none_not_mem (m : List (String × ℕ)) (k : String)
    (hget : mapGet m k = none) : k ∉ m.map Prod.fst := by
  induction m with
  | nil => simp
  | cons f rest ih =>
    obtain ⟨k1, v1⟩ := f
    have hk1 : ¬k1 = k := by
      intro h
      simp [mapGet, h] at hget
    have hrest : mapGet rest k = none := by
      simpa [mapGet, hk1] using hget
    simp only [List.map_cons, List.mem_cons]
    rintro (h | h)
    · exact hk1 h.symm
    · exact ih hrest h

theorem resolverStep_preserves (stdioSession : Option SessionData)
    (st : ResolverState) (s : Option SessionData) :
    (∀ e ∈ st.cache, e ∈ (resolverStep stdioSession st s).cache) ∧
    ((st.cache.map Prod.fst).Nodup →
      ((resolverStep stdioSession st s).cache.map Prod.fst).Nodup) := by
  unfold resolverStep getOpenWeatherClient
  rcases hs : Option.orElse s fun _ => stdioSession with _ | eff
  · simp
  · rcases hget : mapGet st.cache eff.apiKey with _ | c0
    · simp only [hget]
      constructor
      · intro e he
        simpa using mem_mapSet_of_get_none st.cache eff.apiKey st.nextId hget e he
      · intro hnd
        have hkeys := mapSet_keys_of_get_none st.cache eff.apiKey st.nextId hget
        simp only [hkeys]
        refine List.Nodup.append hnd (List.nodup_singleton _) ?_
        intro a ha hb
        rcases List.mem_singleton.mp hb with rfl
        exact mapGet_none_not_mem st.cache eff.apiKey hget ha
    · simp [hget]

/-- C3: a second resolveClient call with the same credential returns the
cached handle and leaves the state untouched (so no new client is
constructed); each call preserves every cached entry (no eviction) and
keeps the cache keys duplicate-free; hence over any call sequence from
process start the cache holds at most one handle per credential. -/
theorem getOpenWeatherClient_cache_spec :
    (∀ (s1 s2 : SessionData) (stdio : Option SessionData) (st : ResolverState)
        (c : ℕ) (st' : ResolverState),
        s1.apiKey = s2.apiKey →
        getOpenWeatherClient (some s1) stdio st = Except.ok (c, st') →
        getOpenWeatherClient (some s2) stdio st' = Except.ok (c, st')) ∧
    (∀ (stdio : Option SessionData) (st : ResolverState) (s : Option SessionData),
        (∀ e ∈ st.cache, e ∈ (resolverStep stdio st s).cache) ∧
        ((st.cache.map Prod.fst).Nodup →
          ((resolverStep stdio st s).cache.map Prod.fst).Nodup)) ∧
    (∀ (stdio : Option SessionData) (calls : List (Option SessionData)),
        ((runResolver stdio calls).cache.map Prod.fst).Nodup) := by
  refine ⟨?_, resolverStep_preserves, ?_⟩
  · intro s1 s2 stdio st c st' hkey hcall
    unfold getOpenWeatherClient at hcall ⊢
    simp only [Option.orElse] at hcall ⊢
    rcases hget : mapGet st.cache s1.apiKey with _ | c0
    · rw [hget] at hcall
      simp only [Option.orElse, Except.ok.injEq, Prod.mk.injEq] at hcall
      obtain ⟨hc, hst⟩ := hcall
      subst hc
      subst hst
      simp only [Option.orElse, ← hkey]
      rw [mapGet_mapSet_self st.cache s1.apiKey st.nextId]
    · rw [hget] at hcall
      simp only [Option.orElse, Except.ok.injEq, Prod.mk.injEq] at hcall
      obtain ⟨hc, hst⟩ := hcall
      subst hc
      subst hst
      simp only [Option.orElse, ← hkey]
      rw [hget]
  · intro stdio calls
    have main : ∀ (calls : List (Option SessionData)) (st : ResolverState),
        (st.cache.map Prod.fst).Nodup →
        ((calls.foldl (resolverStep stdio) st).cache.map Prod.fst).Nodup := by
      intro calls
      induction calls with
      | nil => intro st h; simpa using h
      | cons s rest ih =>
        intro st h
        simp only [List.foldl_cons]
        exact ih _ ((resolverStep_preserves stdio st s).2 h)
    exact main calls initialResolverState (by simp [initialResolverState])

/-- C3 witness: with a concrete credential, the call after the creating
call returns the identical handle number and leaves the cache unchanged. -/
theorem getOpenWeatherClient_cache_spec_witness :
    getOpenWeatherClient (some { apiKey := "0123456789abcdef0123456789abcdef", authenticatedAt := 0 })
        none { cache := [("0123456789abcdef0123456789abcdef", 0)], nextId := 1 }
      = Except.ok (0, { cache := [("0123456789abcdef0123456789abcdef", 0)], nextId := 1 }) :=
  getOpenWeatherClient_cache_spec.1
    { apiKey := "0123456789abcdef0123456789abcdef", authenticatedAt := 0 }
    { apiKey := "0123456789abcdef0123456789abcdef", authenticatedAt := 0 }
    none initialResolverState 0
    { cache := [("0123456789abcdef0123456789abcdef", 0)], nextId := 1 }
    rfl (by decide)

theorem isSepChar_not_digit {c : Char} (h : isSepChar c = true) : isDigitChar c = false := by
  simp [isSepChar, isJSWhitespace] at h
  simp [isDigitChar]
  omega

theorem isSepChar_ne_dot {c : Char} (h : isSepChar c = true) : ¬c = '.' := by
  intro he
  subst he
  exact absurd h (by decide)

theorem isSepChar_ne_dash {c : Char} (h : isSepChar c = true) : ¬c = '-' := by
  intro he
  subst he
  exact absurd h (by decide)

theorem isDigitChar_ne_dash {c : Char} (h : isDigitChar c = true) : ¬c = '-' := by
  intro he
  subst he
  exact absurd h (by decide)

theorem isDigitChar_not_sep {c : Char} (h : isDigitChar c = true) : isSepChar c = false := by
  simp [isDigitChar] at h
  simp [isSepChar, isJSWhitespace]
  omega

theorem isDigitChar_not_ws {c : Char} (h : isDigitChar c = true) : isJSWhitespace c = false := by
  simp [isDigitChar] at h
  simp [isJSWhitespace]
  omega

theorem isSepChar_not_letter {c : Char} (h : isSepChar c = true) : ¬(c = 'l' ∨ c = 'L') := by
  rintro (he | he) <;> (subst he; exact absurd h (by decide))

theorem isDigitChar_not_letter {c : Char} (h : isDigitChar c = true) : ¬(c = 'l' ∨ c = 'L') := by
  rintro (he | he) <;> (subst he; exact absurd h (by decide))

theorem munchWhile_append (p : Char → Bool) (xs ys : List Char)
    (h1 : ∀ c ∈ xs, p c = true) (h2 : ∀ c, ys.head? = some c → p c = false) :
    munchWhile p (xs ++ ys) = (xs, ys) := by
  induction xs with
  | nil =>
    cases ys with
    | nil => rfl
    | cons y ys2 => simp [munchWhile, h2 y rfl]
  | cons x xs2 ih =>
    have hx : p x = true := h1 x (List.mem_cons_self x xs2)
    have ih2 := ih fun c hc => h1 c (List.mem_cons_of_mem x hc)
    simp [munchWhile, hx, ih2]

theorem trimLeft_eq_of_head (l : List Char)
    (h : ∀ c, l.head? = some c → isJSWhitespace c = false) : trimLeft l = l := by
  cases l with
  | nil => rfl
  | cons c cs => simp [trimLeft, h c rfl]

theorem trimChars_eq_of_ends (l : List Char)
    (h1 : ∀ c, l.head? = some c → isJSWhitespace c = false)
    (h2 : ∀ c, l.getLast? = some c → isJSWhitespace c = false) : trimChars l = l := by
  unfold trimChars
  rw [trimLeft_eq_of_head l h1]
  rw [trimLeft_eq_of_head l.reverse]
  · exact List.reverse_reverse l
  · intro c hc
    rw [List.head?_reverse] at hc
    exact h2 c hc

theorem matchNumberUnsigned_int (ds rest : List Char)
    (hds : ds ≠ []) (hd : ∀ c ∈ ds, isDigitChar c = true)
    (hrest : ∀ c, rest.head? = some c → isDigitChar c = false ∧ ¬c = '.') :
    matchNumberUnsigned (ds ++ rest) = some (ds, rest) := by
  have hrd : ∀ c, rest.head? = some c → isDigitChar c = false := fun c hc => (hrest c hc).1
  simp only [matchNumberUnsigned, munchWhile_append isDigitChar ds rest hd hrd]
  rw [if_neg hds]
  cases rest with
  | nil => rfl
  | cons c cs =>
    have hcc := hrest c rfl
    simp [hcc.2]

theorem matchNumberUnsigned_frac (ds fs rest : List Char)
    (hds : ds ≠ []) (hd : ∀ c ∈ ds, isDigitChar c = true)
    (hf : ∀ c ∈ fs, isDigitChar c = true)
    (hrest : ∀ c, rest.head? = some c → isDigitChar c = false) :
    matchNumberUnsigned (ds ++ '.' :: fs ++ rest) = some (ds ++ '.' :: fs, rest) := by
  have hassoc : ds ++ '.' :: fs ++ rest = ds ++ ('.' :: (fs ++ rest)) := by simp
  rw [hassoc]
  have hdot : ∀ c, ('.' :: (fs ++ rest)).head? = some c → isDigitChar c = false := by
    intro c hc
    simp only [List.head?_cons, Option.some.injEq] at hc
    rw [← hc]
    decide
  simp only [matchNumberUnsigned, munchWhile_append isDigitChar ds ('.' :: (fs ++ rest)) hd hdot]
  rw [if_neg hds]
  simp [munchWhile_append isDigitChar fs rest hf hrest]

theorem matchNumber_cons_dash (s : List Char) :
    matchNumber ('-' :: s)
      = match matchNumberUnsigned s with
        | none => none
        | some (t, r) => some ('-' :: t, r) := by
  simp [matchNumber]

theorem matchNumber_cons_digit {d : Char} (hd : isDigitChar d = true) (s : List Char) :
    matchNumber (d :: s) = matchNumberUnsigned (d :: s) := by
  simp [matchNumber, if_neg (isDigitChar_ne_dash hd)]

theorem matchNumber_complete (neg : Bool) (ds fs rest : List Char)
    (hds : ds ≠ []) (hd : ∀ c ∈ ds, isDigitChar c = true)
    (hf : ∀ c ∈ fs, isDigitChar c = true)
    (hrest : ∀ c, rest.head? = some c → isDigitChar c = false ∧ ¬c = '.') :
    matchNumber (mkNumTok neg ds fs ++ rest) = some (mkNumTok neg ds fs, rest) := by
  have hrd : ∀ c, rest.head? = some c → isDigitChar c = false := fun c hc => (hrest c hc).1
  obtain ⟨d, ds2, rfl⟩ : ∃ d ds2, ds = d :: ds2 := by
    cases ds with
    | nil => exact absurd rfl hds
    | cons d ds2 => exact ⟨d, ds2, rfl⟩
  have hd0 : isDigitChar d = true := hd d (List.mem_cons_self d ds2)
  by_cases hfs : fs = []
  · subst hfs
    cases neg with
    | true =>
      have e1 : mkNumTok true (d :: ds2) [] ++ rest = '-' :: ((d :: ds2) ++ rest) := by
        simp [mkNumTok]
      rw [e1, matchNumber_cons_dash, matchNumberUnsigned_int (d :: ds2) rest hds hd hrest]
      simp [mkNumTok]
    | false =>
      have e1 : mkNumTok false (d :: ds2) [] ++ rest = d :: (ds2 ++ rest) := by
        simp [mkNumTok]
      rw [e1, matchNumber_cons_digit hd0,
        show d :: (ds2 ++ rest) = (d :: ds2) ++ rest from by simp,
        matchNumberUnsigned_int (d :: ds2) rest hds hd hrest]
      simp [mkNumTok]
  · cases neg with
    | true =>
      have e1 : mkNumTok true (d :: ds2) fs ++ rest = '-' :: ((d :: ds2) ++ '.' :: fs ++ rest) := by
        simp [mkNumTok, hfs]
      rw [e1, matchNumber_cons_dash, matchNumberUnsigned_frac (d :: ds2) fs rest hds hd hf hrd]
      simp [mkNumTok, hfs]
    | false =>
      have e1 : mkNumTok false (d :: ds2) fs ++ rest = d :: (ds2 ++ '.' :: fs ++ rest) := by
        simp [mkNumTok, hfs]
      rw [e1, matchNumber_cons_digit hd0,
        show d :: (ds2 ++ '.' :: fs ++ rest) = (d :: ds2) ++ '.' :: fs ++ rest from by simp,
        matchNumberUnsigned_frac (d :: ds2) fs rest hds hd hf hrd]
      simp [mkNumTok, hfs]

theorem scanExplicit_none (s : List Char) (h : ∀ c ∈ s, ¬(c = 'l' ∨ c = 'L')) :
    scanExplicit s = none := by
  induction s with
  | nil => rfl
  | cons c cs ih =>
    have hc := h c (List.mem_cons_self c cs)
    have hup : asciiUpperChar 'l' = 'L' := by decide
    have hkw : matchKeyword ['l', 'a', 't'] (c :: cs) = none := by
      simp only [matchKeyword, hup]
      exact if_neg hc
    have hm : matchExplicitAt (c :: cs) = none := by
      unfold matchExplicitAt
      rw [hkw]
    simp only [scanExplicit, hm]
    exact ih fun d hd => h d (List.mem_cons_of_mem c hd)

theorem mem_of_getLast?_eq {l : List Char} {c : Char} (h : l.getLast? = some c) : c ∈ l := by
  rw [← List.head?_reverse] at h
  cases hr : l.reverse with
  | nil =>
    rw [hr] at h
    simp at h
  | cons a t =>
    rw [hr] at h
    simp only [List.head?_cons, Option.some.injEq] at h
    subst h
    have ha : a ∈ l.reverse := by
      rw [hr]
      exact List.mem_cons_self a t
    exact List.mem_reverse.mp ha

theorem mkNumTok_head (neg : Bool) (ds fs : List Char) (hds : ds ≠ [])
    (hd : ∀ c ∈ ds, isDigitChar c = true) :
    ∀ c, (mkNumTok neg ds fs).head? = some c → c = '-' ∨ isDigitChar c = true := by
  obtain ⟨d, ds2, rfl⟩ : ∃ d ds2, ds = d :: ds2 := by
    cases ds with
    | nil => exact absurd rfl hds
    | cons d ds2 => exact ⟨d, ds2, rfl⟩
  intro c hc
  cases neg with
  | true =>
    have : (mkNumTok true (d :: ds2) fs).head? = some '-' := by
      simp [mkNumTok]
    rw [this] at hc
    simp only [Option.some.injEq] at hc
    exact Or.inl hc.symm
  | false =>
    have : (mkNumTok false (d :: ds2) fs).head? = some d := by
      simp [mkNumTok]
    rw [this] at hc
    simp only [Option.some.injEq] at hc
    rw [← hc]
    exact Or.inr (hd d (List.mem_cons_self d ds2))

theorem mkNumTok_head_not_ws (neg : Bool) (ds fs : List Char) (hds : ds ≠ [])
    (hd : ∀ c ∈ ds, isDigitChar c = true) :
    ∀ c, (mkNumTok neg ds fs).head? = some c → isJSWhitespace c = false := by
  intro c hc
  rcases mkNumTok_head neg ds fs hds hd c hc with h | h
  · subst h
    decide
  · exact isDigitChar_not_ws h

theorem mkNumTok_head_not_sep (neg : Bool) (ds fs : List Char) (hds : ds ≠ [])
    (hd : ∀ c ∈ ds, isDigitChar c = true) :
    ∀ c, (mkNumTok neg ds fs).head? = some c → isSepChar c = false := by
  intro c hc
  rcases mkNumTok_head neg ds fs hds hd c hc with h | h
  · subst h
    decide
  · exact isDigitChar_not_sep h

theorem mkNumTok_getLast_digit (neg : Bool) (ds fs : List Char) (hds : ds ≠ [])
    (hd : ∀ c ∈ ds, isDigitChar c = true) (hf : ∀ c ∈ fs, isDigitChar c = true) :
    ∀ c, (mkNumTok neg ds fs).getLast? = some c → isDigitChar c = true := by
  intro c hc
  unfold mkNumTok at hc
  by_cases hfs : fs = []
  · subst hfs
    simp only [reduceIte, List.append_nil] at hc
    rw [List.getLast?_append_of_ne_nil _ hds] at hc
    exact hd c (mem_of_getLast?_eq hc)
  · rw [if_neg hfs,
      List.getLast?_append_of_ne_nil _ (by simp : ('.' :: fs : List Char) ≠ [])] at hc
    rw [show ('.' :: fs : List Char) = ['.'] ++ fs from rfl,
      List.getLast?_append_of_ne_nil _ hfs] at hc
    exact hf c (mem_of_getLast?_eq hc)

theorem mkNumTok_ne_nil (neg : Bool) (ds fs : List Char) (hds : ds ≠ []) :
    mkNumTok neg ds fs ≠ [] := by
  obtain ⟨d, ds2, rfl⟩ : ∃ d ds2, ds = d :: ds2 := by
    cases ds with
    | nil => exact absurd rfl hds
    | cons d ds2 => exact ⟨d, ds2, rfl⟩
  cases neg <;> simp [mkNumTok]

theorem mkNumTok_no_letter (neg : Bool) (ds fs : List Char)
    (hd : ∀ c ∈ ds, isDigitChar c = true) (hf : ∀ c ∈ fs, isDigitChar c = true) :
    ∀ c ∈ mkNumTok neg ds fs, ¬(c = 'l' ∨ c = 'L') := by
  intro c hc
  unfold mkNumTok at hc
  rcases List.mem_append.mp hc with h1 | h2
  · rcases List.mem_append.mp h1 with h3 | h4
    · cases neg with
      | true =>
        simp at h3
        subst h3
        decide
      | false => simp at h3
    · exact isDigitChar_not_letter (hd c h4)
  · by_cases hfs : fs = []
    · subst hfs
      simp at h2
    · rw [if_neg hfs] at h2
      rcases List.mem_cons.mp h2 with h3 | h4
      · subst h3
        decide
      · exact isDigitChar_not_letter (hf c h4)

theorem head?_append_left {l1 l2 : List Char} (h : l1 ≠ []) :
    (l1 ++ l2).head? = l1.head? := by
  cases l1 with
  | nil => exact absurd rfl h
  | cons c cs => rfl

theorem tokenValueUnsigned_val (ds fs : List Char) (hds : ds ≠ [])
    (hd : ∀ c ∈ ds, isDigitChar c = true) (hf : ∀ c ∈ fs, isDigitChar c = true) :
    tokenValueUnsigned (ds ++ (if fs = [] then [] else '.' :: fs))
      = (digitsVal ds : ℚ) + (digitsVal fs : ℚ) / 10 ^ fs.length := by
  by_cases hfs : fs = []
  · subst hfs
    simp only [reduceIte, List.append_nil]
    have hm : munchWhile isDigitChar (ds ++ ([] : List Char)) = (ds, []) :=
      munchWhile_append isDigitChar ds [] hd (by intro c hc; simp at hc)
    rw [List.append_nil] at hm
    simp only [tokenValueUnsigned, hm]
    simp [digitsVal]
  · rw [if_neg hfs]
    have hm : munchWhile isDigitChar (ds ++ '.' :: fs) = (ds, '.' :: fs) :=
      munchWhile_append isDigitChar ds ('.' :: fs) hd
        (by intro c hc; simp only [List.head?_cons, Option.some.injEq] at hc; rw [← hc]; decide)
    simp only [tokenValueUnsigned, hm, reduceIte]
    rw [Rat.divInt_eq_div]
    push_cast
    have h10 : ((10 : ℚ)) ^ fs.length ≠ 0 := by positivity
    field_simp

theorem tokenValue_mkNumTok (neg : Bool) (ds fs : List Char) (hds : ds ≠ [])
    (hd : ∀ c ∈ ds, isDigitChar c = true) (hf : ∀ c ∈ fs, isDigitChar c = true) :
    tokenValue (mkNumTok neg ds fs) = decimalValue neg ds fs := by
  obtain ⟨d, ds2, rfl⟩ : ∃ d ds2, ds = d :: ds2 := by
    cases ds with
    | nil => exact absurd rfl hds
    | cons d ds2 => exact ⟨d, ds2, rfl⟩
  have hd0 : isDigitChar d = true := hd d (List.mem_cons_self d ds2)
  have base := tokenValueUnsigned_val (d :: ds2) fs hds hd hf
  cases neg with
  | true =>
    have e1 : mkNumTok true (d :: ds2) fs
        = '-' :: ((d :: ds2) ++ (if fs = [] then [] else '.' :: fs)) := by
      simp [mkNumTok]
    rw [e1]
    simp only [tokenValue, reduceIte]
    rw [base]
    simp only [decimalValue, reduceIte]
    ring
  | false =>
    have e1 : mkNumTok false (d :: ds2) fs
        = (d :: ds2) ++ (if fs = [] then [] else '.' :: fs) := by
      simp [mkNumTok]
    rw [e1, show (d :: ds2) ++ (if fs = [] then [] else '.' :: fs)
        = d :: (ds2 ++ (if fs = [] then [] else '.' :: fs)) from by simp]
    simp only [tokenValue]
    rw [if_neg (isDigitChar_ne_dash hd0)]
    rw [show d :: (ds2 ++ (if fs = [] then [] else '.' :: fs))
        = (d :: ds2) ++ (if fs = [] then [] else '.' :: fs) from by simp]
    rw [base]
    simp [decimalValue]

theorem matchCoordPair_complete (neg1 : Bool) (ds1 fs1 : List Char) (neg2 : Bool)
    (ds2 fs2 sep : List Char)
    (hds1 : ds1 ≠ []) (hd1 : ∀ c ∈ ds1, isDigitChar c = true)
    (hf1 : ∀ c ∈ fs1, isDigitChar c = true)
    (hds2 : ds2 ≠ []) (hd2 : ∀ c ∈ ds2, isDigitChar c = true)
    (hf2 : ∀ c ∈ fs2, isDigitChar c = true)
    (hsep : sep ≠ []) (hsepall : ∀ c ∈ sep, isSepChar c = true) :
    matchCoordPair (mkNumTok neg1 ds1 fs1 ++ sep ++ mkNumTok neg2 ds2 fs2)
      = some (mkNumTok neg1 ds1 fs1, mkNumTok neg2 ds2 fs2) := by
  have hsephead : ∀ c, (sep ++ mkNumTok neg2 ds2 fs2).head? = some c →
      isDigitChar c = false ∧ ¬c = '.' := by
    intro c hc
    rw [head?_append_left hsep] at hc
    obtain ⟨s0, sep2, rfl⟩ : ∃ s0 sep2, sep = s0 :: sep2 := by
      cases sep with
      | nil => exact absurd rfl hsep
      | cons s0 sep2 => exact ⟨s0, sep2, rfl⟩
    simp only [List.head?_cons, Option.some.injEq] at hc
    rw [← hc]
    have hs0 := hsepall s0 (List.mem_cons_self s0 sep2)
    exact ⟨isSepChar_not_digit hs0, isSepChar_ne_dot hs0⟩
  have hmw : munchWhile isSepChar (sep ++ mkNumTok neg2 ds2 fs2)
      = (sep, mkNumTok neg2 ds2 fs2) :=
    munchWhile_append isSepChar sep (mkNumTok neg2 ds2 fs2) hsepall
      (mkNumTok_head_not_sep neg2 ds2 fs2 hds2 hd2)
  have h2 : matchNumber (mkNumTok neg2 ds2 fs2) = some (mkNumTok neg2 ds2 fs2, []) := by
    have := matchNumber_complete neg2 ds2 fs2 [] hds2 hd2 hf2 (by intro c hc; simp at hc)
    rwa [List.append_nil] at this
  rw [List.append_assoc]
  simp only [matchCoordPair,
    matchNumber_complete neg1 ds1 fs1 (sep ++ mkNumTok neg2 ds2 fs2) hds1 hd1 hf1 hsephead,
    hmw]
  rw [if_neg hsep, h2]
  simp

theorem mkNumTok_pair_no_letter (neg1 : Bool) (ds1 fs1 : List Char) (neg2 : Bool)
    (ds2 fs2 sep : List Char)
    (hd1 : ∀ c ∈ ds1, isDigitChar c = true) (hf1 : ∀ c ∈ fs1, isDigitChar c = true)
    (hd2 : ∀ c ∈ ds2, isDigitChar c = true) (hf2 : ∀ c ∈ fs2, isDigitChar c = true)
    (hsepall : ∀ c ∈ sep, isSepChar c = true) :
    ∀ c ∈ mkNumTok neg1 ds1 fs1 ++ sep ++ mkNumTok neg2 ds2 fs2, ¬(c = 'l' ∨ c = 'L') := by
  intro c hc
  rcases List.mem_append.mp hc with h1 | h2
  · rcases List.mem_append.mp h1 with h3 | h4
    · exact mkNumTok_no_letter neg1 ds1 fs1 hd1 hf1 c h3
    · exact isSepChar_not_letter (hsepall c h4)
  · exact mkNumTok_no_letter neg2 ds2 fs2 hd2 hf2 c h2

theorem mkNumTok_pair_trim (neg1 : Bool) (ds1 fs1 : List Char) (neg2 : Bool)
    (ds2 fs2 sep : List Char)
    (hds1 : ds1 ≠ []) (hd1 : ∀ c ∈ ds1, isDigitChar c = true)
    (hds2 : ds2 ≠ []) (hd2 : ∀ c ∈ ds2, isDigitChar c = true)
    (hf2 : ∀ c ∈ fs2, isDigitChar c = true) :
    trimChars (mkNumTok neg1 ds1 fs1 ++ sep ++ mkNumTok neg2 ds2 fs2)
      = mkNumTok neg1 ds1 fs1 ++ sep ++ mkNumTok neg2 ds2 fs2 := by
  apply trimChars_eq_of_ends
  · intro c hc
    rw [List.append_assoc,
      head?_append_left (mkNumTok_ne_nil neg1 ds1 fs1 hds1)] at hc
    exact mkNumTok_head_not_ws neg1 ds1 fs1 hds1 hd1 c hc
  · intro c hc
    rw [List.getLast?_append_of_ne_nil _ (mkNumTok_ne_nil neg2 ds2 fs2 hds2)] at hc
    exact isDigitChar_not_ws (mkNumTok_getLast_digit neg2 ds2 fs2 hds2 hd2 hf2 c hc)

/-- C8: whenever neither coordinate pattern matches within bounds on the
trimmed input, parseLocation returns (never throws) a PlaceName whose query
is the input trimmed only at its ends, interior whitespace preserved;
in particular on the empty string, a whitespace-only string, a city name
with repeated interior spaces, a single bare number, and a partial lat:
form without lon. -/
theorem parseLocation_city_fallback :
    (∀ s : String,
      explicitInRange (trimChars s.toList) = false →
      pairInRange (trimChars s.toList) = false →
      parseLocation s = { type := LocationType.city, latitude := none, longitude := none,
                          city := some (String.mk (trimChars s.toList)) }) ∧
    parseLocation "" = { type := LocationType.city, city := some "" } ∧
    parseLocation "   " = { type := LocationType.city, city := some "" } ∧
    parseLocation "  New   York  " = { type := LocationType.city, city := some "New   York" } ∧
    parseLocation "12345" = { type := LocationType.city, city := some "12345" } ∧
    parseLocation "lat:40.7128" = { type := LocationType.city, city := some "lat:40.7128" } := by
  refine ⟨?_, by decide, by decide, by decide, by decide, by decide⟩
  intro s h1 h2
  rw [show s.toList = s.data from rfl] at h1 h2
  unfold explicitInRange at h1
  unfold pairInRange at h2
  unfold parseLocation coordStep cityResult
  rcases he : scanExplicit (trimChars s.data) with _ | r1
  · rcases hp : matchCoordPair (trimChars s.data) with _ | r2
    · simp [he, hp]
    · obtain ⟨u1, u2⟩ := r2
      rw [hp] at h2
      simp only at h2
      simp [he, hp, h2]
  · obtain ⟨t1, t2⟩ := r1
    rw [he] at h1
    simp only at h1
    rcases hp : matchCoordPair (trimChars s.data) with _ | r2
    · simp [he, hp, h1]
    · obtain ⟨u1, u2⟩ := r2
      rw [hp] at h2
      simp only at h2
      simp [he, hp, h1, h2]

/-- C8 witness: a plain city name takes the fallback branch. -/
theorem parseLocation_city_fallback_witness :
    parseLocation "Paris" = { type := LocationType.city, latitude := none, longitude := none,
                              city := some (String.mk (trimChars "Paris".toList)) } :=
  parseLocation_city_fallback.1 "Paris" (by decide) (by decide)

/-- C2: every string of the bare-pair shape (optionally signed decimal
numbers separated by one or more commas or whitespace characters, spanning
the whole string) parses to Coordinates carrying exactly the two decimal
values when both are within [-90, 90] x [-180, 180], and degrades to a
PlaceName carrying the input string unchanged when either is out of range;
the captured values are exactly the decimal values of the two tokens. -/
theorem parseLocation_bare_pair :
    ∀ (neg1 : Bool) (ds1 fs1 : List Char) (neg2 : Bool) (ds2 fs2 sep : List Char),
      ds1 ≠ [] → (∀ c ∈ ds1, isDigitChar c = true) → (∀ c ∈ fs1, isDigitChar c = true) →
      ds2 ≠ [] → (∀ c ∈ ds2, isDigitChar c = true) → (∀ c ∈ fs2, isDigitChar c = true) →
      sep ≠ [] → (∀ c ∈ sep, isSepChar c = true) →
      tokenValue (mkNumTok neg1 ds1 fs1) = decimalValue neg1 ds1 fs1 ∧
      (isValidCoordinate (decimalValue neg1 ds1 fs1) (decimalValue neg2 ds2 fs2) = true →
        parseLocation (String.mk (mkNumTok neg1 ds1 fs1 ++ sep ++ mkNumTok neg2 ds2 fs2))
          = { type := LocationType.coordinates,
              latitude := some (decimalValue neg1 ds1 fs1),
              longitude := some (decimalValue neg2 ds2 fs2), city := none }) ∧
      (isValidCoordinate (decimalValue neg1 ds1 fs1) (decimalValue neg2 ds2 fs2) = false →
        parseLocation (String.mk (mkNumTok neg1 ds1 fs1 ++ sep ++ mkNumTok neg2 ds2 fs2))
          = { type := LocationType.city, latitude := none, longitude := none,
              city := some (String.mk
                (mkNumTok neg1 ds1 fs1 ++ sep ++ mkNumTok neg2 ds2 fs2)) }) := by
  intro neg1 ds1 fs1 neg2 ds2 fs2 sep hds1 hd1 hf1 hds2 hd2 hf2 hsep hsepall
  have htrim := mkNumTok_pair_trim neg1 ds1 fs1 neg2 ds2 fs2 sep hds1 hd1 hds2 hd2 hf2
  have hscan : scanExplicit (mkNumTok neg1 ds1 fs1 ++ sep ++ mkNumTok neg2 ds2 fs2) = none :=
    scanExplicit_none _
      (mkNumTok_pair_no_letter neg1 ds1 fs1 neg2 ds2 fs2 sep hd1 hf1 hd2 hf2 hsepall)
  have hpair := matchCoordPair_complete neg1 ds1 fs1 neg2 ds2 fs2 sep
    hds1 hd1 hf1 hds2 hd2 hf2 hsep hsepall
  have hv1 := tokenValue_mkNumTok neg1 ds1 fs1 hds1 hd1 hf1
  have hv2 := tokenValue_mkNumTok neg2 ds2 fs2 hds2 hd2 hf2
  have hlist : (String.mk (mkNumTok neg1 ds1 fs1 ++ sep ++ mkNumTok neg2 ds2 fs2)).toList
      = mkNumTok neg1 ds1 fs1 ++ sep ++ mkNumTok neg2 ds2 fs2 := rfl
  refine ⟨hv1, ?_, ?_⟩
  · intro hvalid
    unfold parseLocation coordStep
    rw [hlist, htrim]
    simp only [hscan, hpair, hv1, hv2, hvalid]
    simp
  · intro hvalid
    unfold parseLocation coordStep cityResult
    rw [hlist, htrim]
    simp only [hscan, hpair, hv1, hv2, hvalid]
    simp

/-- C2 witness: the specification example 40.7128,-74.0060 parses to those
exact coordinates. -/
theorem parseLocation_bare_pair_witness :
    parseLocation (String.mk (mkNumTok false ['4', '0'] ['7', '1', '2', '8']
        ++ [','] ++ mkNumTok true ['7', '4'] ['0', '0', '6', '0']))
      = { type := LocationType.coordinates,
          latitude := some (decimalValue false ['4', '0'] ['7', '1', '2', '8']),
          longitude := some (decimalValue true ['7', '4'] ['0', '0', '6', '0']),
          city := none } :=
  (parseLocation_bare_pair false ['4', '0'] ['7', '1', '2', '8'] true ['7', '4'] ['0', '0', '6', '0']
    [','] (by decide) (by decide) (by decide) (by decide) (by decide) (by decide)
    (by decide) (by decide)).2.1
    (by
      have h1 : digitsVal ['4', '0'] = 40 := by decide
      have h2 : digitsVal ['7', '1', '2', '8'] = 7128 := by decide
      have h3 : digitsVal ['7', '4'] = 74 := by decide
      have h4 : digitsVal ['0', '0', '6', '0'] = 60 := by decide
      norm_num [isValidCoordinate, decimalValue, h1, h2, h3, h4])

theorem jsMod_eq_self {d : ℚ} (h0 : 0 ≤ d) (h1 : d < 360) : jsMod d 360 = d := by
  unfold jsMod jsTrunc
  have hq0 : 0 ≤ d / 360 := by positivity
  rw [if_neg (not_lt.mpr hq0)]
  have hfl : ⌊d / 360⌋ = 0 := by
    rw [Int.floor_eq_zero_iff]
    constructor
    · exact hq0
    · rw [div_lt_one (by norm_num : (0:ℚ) < 360)]
      exact h1
  rw [hfl]
  simp

theorem jsMod_nonneg_lt (d : ℚ) (hd : 0 ≤ d) : 0 ≤ jsMod d 360 ∧ jsMod d 360 < 360 := by
  unfold jsMod jsTrunc
  have hq0 : 0 ≤ d / 360 := by positivity
  rw [if_neg (not_lt.mpr hq0)]
  have he : (360 : ℚ) * (d / 360) = d := by field_simp
  have h1 : (⌊d / 360⌋ : ℚ) ≤ d / 360 := Int.floor_le _
  have h2 : d / 360 < (⌊d / 360⌋ : ℚ) + 1 := Int.lt_floor_add_one _
  constructor
  · nlinarith
  · nlinarith

theorem jsRound_le (x : ℚ) : (jsRound x : ℚ) ≤ x + 1 / 2 := by
  unfold jsRound
  exact Int.floor_le _

theorem jsRound_gt (x : ℚ) : x - 1 / 2 < (jsRound x : ℚ) := by
  unfold jsRound
  have := Int.lt_floor_add_one (x + 1 / 2)
  linarith

theorem jsRound_nonneg {x : ℚ} (h : 0 ≤ x) : 0 ≤ jsRound x := by
  unfold jsRound
  apply Int.le_floor.mpr
  push_cast
  linarith

theorem jsRound_le_sixteen {x : ℚ} (h : x < 16) : jsRound x ≤ 16 := by
  unfold jsRound
  have : ⌊x + 1 / 2⌋ < 17 := by
    apply Int.floor_lt.mpr
    push_cast
    linarith
  omega

theorem windDirection_nearest {d : ℚ} (h0 : 0 ≤ d) (h1 : d < 360) :
    ∃ i : ℕ, i < 16 ∧ getWindDirection d = windDirections.get? i ∧
      ∀ k : ℕ, k < 16 →
        circularDistance d (sectorCenter i) ≤ circularDistance d (sectorCenter k) := by
  have h45 : (0 : ℚ) < 45 / 2 := by norm_num
  have hm : jsMod d 360 = d := jsMod_eq_self h0 h1
  have hq0 : 0 ≤ d / (45 / 2) := by positivity
  have hqlt : d / (45 / 2) < 16 := by
    rw [div_lt_iff h45]
    linarith
  have hi0nn : 0 ≤ jsRound (d / (45 / 2)) := jsRound_nonneg hq0
  have hi0le : jsRound (d / (45 / 2)) ≤ 16 := jsRound_le_sixteen hqlt
  have hub := jsRound_le (d / (45 / 2))
  have hlb := jsRound_gt (d / (45 / 2))
  have he : 45 / 2 * (d / (45 / 2)) = d := by
    field_simp
    ring
  have hcb1 : 45 / 2 * ((jsRound (d / (45 / 2)) : ℤ) : ℚ) ≤ d + 45 / 4 := by
    nlinarith [mul_le_mul_of_nonneg_left hub (le_of_lt h45)]
  have hcb2 : d - 45 / 4 < 45 / 2 * ((jsRound (d / (45 / 2)) : ℤ) : ℚ) := by
    nlinarith [mul_lt_mul_of_pos_left hlb h45]
  by_cases hc : jsRound (d / (45 / 2)) ≤ 15
  · have hIcast : (((jsRound (d / (45 / 2))).toNat : ℕ) : ℚ)
        = ((jsRound (d / (45 / 2)) : ℤ) : ℚ) := by
      exact_mod_cast congrArg (fun z : ℤ => (z : ℚ)) (Int.toNat_of_nonneg hi0nn)
    have hwind : windIndex d = jsRound (d / (45 / 2)) := by
      unfold windIndex
      rw [hm]
      unfold jsIntRem
      rw [if_neg (not_lt.mpr hi0nn)]
      exact Int.emod_eq_of_lt hi0nn (by omega)
    have hcenter : sectorCenter (jsRound (d / (45 / 2))).toNat
        = 45 / 2 * ((jsRound (d / (45 / 2)) : ℤ) : ℚ) := by
      unfold sectorCenter
      rw [hIcast]
    have hdisti : |d - 45 / 2 * ((jsRound (d / (45 / 2)) : ℤ) : ℚ)| ≤ 45 / 4 :=
      abs_le.mpr ⟨by linarith, by linarith⟩
    have hcirci : circularDistance d (sectorCenter (jsRound (d / (45 / 2))).toNat)
        = |d - 45 / 2 * ((jsRound (d / (45 / 2)) : ℤ) : ℚ)| := by
      rw [hcenter]
      unfold circularDistance
      exact min_eq_left (by linarith)
    refine ⟨(jsRound (d / (45 / 2))).toNat, by omega, ?_, ?_⟩
    · unfold getWindDirection
      rw [hwind, if_pos hi0nn]
    · intro k hk
      by_cases hki : k = (jsRound (d / (45 / 2))).toNat
      · rw [hki]
      · have hkQ : ((k : ℕ) : ℚ) ≤ ((jsRound (d / (45 / 2)) : ℤ) : ℚ) - 1 ∨
            ((jsRound (d / (45 / 2)) : ℤ) : ℚ) + 1 ≤ ((k : ℕ) : ℚ) := by
          have hsplit : (k : ℤ) ≤ jsRound (d / (45 / 2)) - 1 ∨
              jsRound (d / (45 / 2)) + 1 ≤ (k : ℤ) := by omega
          rcases hsplit with h | h
          · left
            exact_mod_cast h
          · right
            exact_mod_cast h
        have hk15 : ((k : ℕ) : ℚ) ≤ 15 := by exact_mod_cast Nat.le_of_lt_succ hk
        have hk0 : (0 : ℚ) ≤ ((k : ℕ) : ℚ) := by positivity
        have hcomp1 : 45 / 4 ≤ |d - 45 / 2 * ((k : ℕ) : ℚ)| := by
          rcases hkQ with h | h
          · apply le_abs.mpr
            left
            nlinarith [mul_le_mul_of_nonneg_left h (le_of_lt h45)]
          · apply le_abs.mpr
            right
            nlinarith [mul_le_mul_of_nonneg_left h (le_of_lt h45)]
        have hcomp2 : |d - 45 / 2 * ((k : ℕ) : ℚ)| ≤ 1395 / 4 := by
          apply abs_le.mpr
          constructor
          · linarith
          · by_contra hcon
            push_neg at hcon
            have hk0' : ((k : ℕ) : ℚ) < 1 / 2 := by linarith
            have hklt1 : ((k : ℕ) : ℚ) < 1 := by linarith
            have hknat : k < 1 := by exact_mod_cast hklt1
            have hkzero : ((k : ℕ) : ℚ) = 0 := by
              have hz : k = 0 := by omega
              simp [hz]
            rw [hkzero] at hcon
            have hdbig : 1395 / 4 < d := by linarith
            have h16 : (16 : ℤ) ≤ jsRound (d / (45 / 2)) := by
              unfold jsRound
              apply Int.le_floor.mpr
              push_cast
              have hq2 : (31 : ℚ) / 2 ≤ d / (45 / 2) := by
                rw [le_div_iff h45]
                linarith
              linarith
            omega
        rw [hcirci]
        unfold circularDistance sectorCenter
        apply le_min
        · linarith
        · linarith
  · have h16 : jsRound (d / (45 / 2)) = 16 := by omega
    have hwind : windIndex d = 0 := by
      unfold windIndex
      rw [hm]
      unfold jsIntRem
      rw [h16]
      norm_num
    have hdge : 1395 / 4 ≤ d := by
      have h16' : (16 : ℚ) ≤ d / (45 / 2) + 1 / 2 := by
        have hfl : (16 : ℤ) ≤ ⌊d / (45 / 2) + 1 / 2⌋ := by
          unfold jsRound at h16
          omega
        have := Int.le_floor.mp hfl
        exact_mod_cast this
      have hq2 : (31 : ℚ) / 2 ≤ d / (45 / 2) := by linarith
      have := (le_div_iff h45).mp hq2
      linarith
    have hcirc0 : circularDistance d (sectorCenter 0) = 360 - d := by
      unfold circularDistance sectorCenter
      push_cast
      rw [mul_zero, sub_zero, abs_of_nonneg h0]
      exact min_eq_right (by linarith)
    refine ⟨0, by norm_num, ?_, ?_⟩
    · unfold getWindDirection
      rw [hwind]
      norm_num
    · intro k hk
      rcases Nat.eq_zero_or_pos k with hk0 | hk1
      · rw [hk0]
      · have hk1Q : (1 : ℚ) ≤ ((k : ℕ) : ℚ) := by exact_mod_cast hk1
        have hk15 : ((k : ℕ) : ℚ) ≤ 15 := by exact_mod_cast Nat.le_of_lt_succ hk
        have habs : |d - 45 / 2 * ((k : ℕ) : ℚ)| = d - 45 / 2 * ((k : ℕ) : ℚ) :=
          abs_of_nonneg (by linarith)
        rw [hcirc0]
        unfold circularDistance sectorCenter
        rw [habs]
        apply le_min
        · linarith
        · linarith

theorem windIndex_bounds_of_nonneg {d : ℚ} (hd : 0 ≤ d) :
    0 ≤ windIndex d ∧ windIndex d < 16 := by
  obtain ⟨hm0, _⟩ := jsMod_nonneg_lt d hd
  have hq0 : 0 ≤ jsMod d 360 / (45 / 2) := by positivity
  have hi0nn : 0 ≤ jsRound (jsMod d 360 / (45 / 2)) := jsRound_nonneg hq0
  unfold windIndex jsIntRem
  rw [if_neg (not_lt.mpr hi0nn)]
  exact ⟨Int.emod_nonneg _ (by norm_num), Int.emod_lt_of_pos _ (by norm_num)⟩

/-- C7: getWindDirection maps 0 and 360 to N and 22.5 to NNE, and on
[0, 360) always returns the compass label whose sector center is nearest
to the bearing (around the circle, ties resolved upward by rounding). -/
theorem getWindDirection_nearest_sector :
    getWindDirection 0 = some "N" ∧ getWindDirection 360 = some "N" ∧
    getWindDirection (45 / 2) = some "NNE" ∧
    ∀ d : ℚ, 0 ≤ d → d < 360 →
      ∃ i : ℕ, i < 16 ∧ getWindDirection d = windDirections.get? i ∧
        ∀ k : ℕ, k < 16 →
          circularDistance d (sectorCenter i) ≤ circularDistance d (sectorCenter k) := by
  refine ⟨?_, ?_, ?_, fun d h0 h1 => windDirection_nearest h0 h1⟩
  · norm_num [getWindDirection, windIndex, jsMod, jsTrunc, jsRound, jsIntRem]
    rfl
  · norm_num [getWindDirection, windIndex, jsMod, jsTrunc, jsRound, jsIntRem]
    rfl
  · norm_num [getWindDirection, windIndex, jsMod, jsTrunc, jsRound, jsIntRem]
    rfl

/-- C7 witness: the nearest-sector property instantiated at bearing 300. -/
theorem getWindDirection_nearest_sector_witness :
    ∃ i : ℕ, i < 16 ∧ getWindDirection 300 = windDirections.get? i ∧
      ∀ k : ℕ, k < 16 →
        circularDistance 300 (sectorCenter i) ≤ circularDistance 300 (sectorCenter k) :=
  getWindDirection_nearest_sector.2.2.2 300 (by norm_num) (by norm_num)

/-- C10: for every non-negative finite bearing the computed index stays
within the 16-entry table, so the function returns one of the 16 labels;
a negative bearing keeps its sign through the remainders and can index
out of bounds, as bearing -90 shows (array read yields undefined). -/
theorem getWindDirection_index_in_bounds :
    (∀ d : ℚ, 0 ≤ d →
      0 ≤ windIndex d ∧ windIndex d < 16 ∧
      ∃ s : String, getWindDirection d = some s ∧ s ∈ windDirections) ∧
    windIndex (-90) = -4 ∧ getWindDirection (-90) = none := by
  refine ⟨?_, ?_, ?_⟩
  · intro d hd
    obtain ⟨hnn, hlt⟩ := windIndex_bounds_of_nonneg hd
    refine ⟨hnn, hlt, ?_⟩
    have hlen : (windIndex d).toNat < windDirections.length := by
      have : windDirections.length = 16 := by norm_num [windDirections]
      omega
    refine ⟨windDirections.get ⟨(windIndex d).toNat, hlen⟩, ?_, List.get_mem _ _ _⟩
    unfold getWindDirection
    rw [if_pos hnn]
    exact List.get?_eq_get hlen
  · norm_num [windIndex, jsMod, jsTrunc, jsRound, jsIntRem]
  · norm_num [getWindDirection, windIndex, jsMod, jsTrunc, jsRound, jsIntRem]

/-- C10 witness: the in-bounds guarantee instantiated at bearing 45. -/
theorem getWindDirection_index_in_bounds_witness :
    0 ≤ windIndex 45 ∧ windIndex 45 < 16 ∧
      ∃ s : String, getWindDirection 45 = some s ∧ s ∈ windDirections :=
  getWindDirection_index_in_bounds.1 45 (by norm_num)

theorem toFixed4Nat_eq_floor (q : ℚ) : toFixed4Nat q = ⌊q * 10000 + 1 / 2⌋.toNat := by
  unfold toFixed4Nat
  have hb : ∀ x : ℚ, x.floor = ⌊x⌋ := by
    intro x
    rw [Rat.floor_def', Rat.floor_def]
  rw [hb]
  congr 1
  congr 1
  rw [Rat.divInt_eq_div]
  have hden0 : ((q.den : ℚ)) ≠ 0 := by
    exact_mod_cast q.den_nz
  have hmul : (q.num : ℚ) = q * (q.den : ℚ) := by
    calc (q.num : ℚ) = (q.num : ℚ) / (q.den : ℚ) * (q.den : ℚ) :=
          (div_mul_cancel₀ _ hden0).symm
      _ = q * (q.den : ℚ) := by rw [Rat.num_div_den q]
  push_cast
  field_simp
  linear_combination (40000 : ℚ) * hmul

end OWM
